import Mathlib

/-!
Verification of the product-creation modal (`src/components/AddProductModal.tsx`).

The component is embedded shallowly: its React `useState` fields become a
`ComponentState` record, each event handler becomes a pure function from
state to state (plus, for the submit handler, the effects it would trigger:
the `onAdd` callback argument, the `onClose` call, and the alert message).
JavaScript numeric parsing (`parseFloat`, `parseInt`) is modelled over an
explicit `JsNum` type that distinguishes `NaN`, the two infinities and
finite values (as rationals), since the validation logic branches on
`isNaN` and `<= 0`.  JavaScript objects with string keys and numeric
values (the `SizeRecord`) are modelled as insertion-ordered association
lists, so that key sets and spread/override semantics are explicit.
-/

namespace AddProductModal

/-- An exact rational value `num / den`: the finite result of `parseFloat`
on a decimal literal. The parser only ever produces positive powers of ten
as denominators, so `den` is always positive and the sign of the value is
the sign of `num`. (Fractions are kept unnormalised so that all arithmetic
is kernel-computable.) -/
structure JsRat where
  num : Int
  den : Nat
deriving DecidableEq

/-- The rational value of a `JsRat`. -/
def JsRat.val (r : JsRat) : Rat := (r.num : Rat) / (r.den : Rat)

/-- JavaScript number results relevant to this component: `parseFloat` can
produce `NaN`, `Infinity`, `-Infinity` or a finite value. -/
inductive JsNum where
  | nan
  | inf
  | negInf
  | fin (r : JsRat)
deriving DecidableEq

/-- `isNaN` on a `JsNum`. -/
def jsIsNaN : JsNum → Bool
  | .nan => true
  | _ => false

/-- The JavaScript comparison `x <= 0` (false for `NaN`; for a finite value
with positive denominator this is the sign test on the numerator). -/
def jsLeZero : JsNum → Bool
  | .nan => false
  | .inf => false
  | .negInf => true
  | .fin r => decide (r.num ≤ 0)

/-- JavaScript whitespace characters recognised by `String.prototype.trim`
and skipped by `parseFloat` / `parseInt` (the ones relevant to text input). -/
def jsIsSpace (c : Char) : Bool :=
  c == ' ' || c == '\t' || c == '\n' || c == '\r' || c == '\x0b' || c == '\x0c' || c == '\u00A0'

/-- `String.prototype.trim`: strips leading and trailing whitespace. -/
def jsTrim (s : String) : String :=
  ⟨((s.data.dropWhile jsIsSpace).reverse.dropWhile jsIsSpace).reverse⟩

/-- Numeric value of a list of decimal digit characters. -/
def natOfDigits (l : List Char) : Nat :=
  l.foldl (fun a c => a * 10 + (c.toNat - 48)) 0

/-- Parse an optional leading sign, returning the sign and the rest. -/
def parseSign : List Char → Int × List Char
  | '+' :: rest => (1, rest)
  | '-' :: rest => (-1, rest)
  | cs => (1, cs)

/-- Hexadecimal digit test. -/
def isHexDigit (c : Char) : Bool :=
  c.isDigit || (decide ('a' ≤ c) && decide (c ≤ 'f')) || (decide ('A' ≤ c) && decide (c ≤ 'F'))

/-- Numeric value of a list of hexadecimal digit characters. -/
def natOfHexDigits (l : List Char) : Nat :=
  l.foldl
    (fun a c =>
      a * 16 +
        (if c.isDigit then c.toNat - 48
         else if decide ('a' ≤ c) then c.toNat - 87
         else c.toNat - 55))
    0

/-- The exponent part of a JavaScript decimal literal (after `e`/`E`):
optional sign followed by digits; no digits means the exponent marker is
not part of the number (contributing exponent 0). -/
def parseExponent (cs : List Char) : Int :=
  let (esgn, cs1) := parseSign cs
  let ds := cs1.takeWhile Char.isDigit
  if ds = [] then 0 else esgn * (natOfDigits ds : Int)

/-- JavaScript `parseFloat`: skip leading whitespace, optional sign, then
the longest prefix that is `Infinity` or a decimal literal
(`digits [. digits]`, `.digits`, optional exponent); anything else is `NaN`. -/
def parseFloatJS (s : String) : JsNum :=
  let cs := s.data.dropWhile jsIsSpace
  let (sgn, cs0) := parseSign cs
  match cs0 with
  | 'I' :: 'n' :: 'f' :: 'i' :: 'n' :: 'i' :: 't' :: 'y' :: _ =>
      if sgn = 1 then .inf else .negInf
  | cs1 =>
      let intDigits := cs1.takeWhile Char.isDigit
      let cs2 := cs1.dropWhile Char.isDigit
      let (fracDigits, cs3) :=
        match cs2 with
        | '.' :: rest => (rest.takeWhile Char.isDigit, rest.dropWhile Char.isDigit)
        | _ => ([], cs2)
      if intDigits = [] ∧ fracDigits = [] then .nan
      else
        let scale : Nat := 10 ^ fracDigits.length
        let mantissaNum : Int := (natOfDigits intDigits * scale + natOfDigits fracDigits : Nat)
        let exp : Int :=
          match cs3 with
          | 'e' :: rest => parseExponent rest
          | 'E' :: rest => parseExponent rest
          | _ => 0
        let signedNum := sgn * mantissaNum
        .fin
          (if 0 ≤ exp then ⟨signedNum * ((10 ^ exp.toNat : Nat) : Int), scale⟩
           else ⟨signedNum, scale * 10 ^ (-exp).toNat⟩)

/-- JavaScript `parseInt` with no radix argument: skip whitespace, optional
sign, then either a `0x`/`0X`-prefixed hexadecimal literal or decimal
digits; `none` models `NaN` (no digits found). -/
def parseIntJS (s : String) : Option Int :=
  let cs := s.data.dropWhile jsIsSpace
  let (sgn, cs0) := parseSign cs
  match cs0 with
  | '0' :: 'x' :: rest =>
      let ds := rest.takeWhile isHexDigit
      if ds = [] then none else some (sgn * (natOfHexDigits ds : Int))
  | '0' :: 'X' :: rest =>
      let ds := rest.takeWhile isHexDigit
      if ds = [] then none else some (sgn * (natOfHexDigits ds : Int))
  | cs1 =>
      let ds := cs1.takeWhile Char.isDigit
      if ds = [] then none else some (sgn * (natOfDigits ds : Int))

/-- The JavaScript idiom `parseInt(v) || 0`: `NaN` (and `0` itself, which is
falsy) coerce to `0`. -/
def jsOrZeroInt : Option Int → Int
  | none => 0
  | some n => if n = 0 then 0 else n

/-- The JavaScript idiom `sizes[size] || 0` applied to an object lookup:
a missing key (`undefined`) and a stored `0` both give `0`. -/
def jsOrZeroGet : Option Int → Int
  | none => 0
  | some n => if n = 0 then 0 else n

/-- JavaScript object with string keys and numeric values, as an
insertion-ordered association list (keys are unique in all states the
component constructs). -/
def JsObj : Type := List (String × Int)

/-- Property lookup on a JavaScript object. -/
def jsObjGet (o : List (String × Int)) (k : String) : Option Int :=
  (o.find? (fun p => p.1 == k)).map Prod.snd

/-- Property assignment semantics of `{ ...o, [k]: v }` for a single key:
an existing key keeps its position and is overwritten, a new key is
appended at the end. -/
def jsObjSet (o : List (String × Int)) (k : String) (v : Int) : List (String × Int) :=
  if o.any (fun p => p.1 == k)
  then o.map (fun p => if p.1 == k then (k, v) else p)
  else o ++ [(k, v)]

/-- Spreading a list of entries over an object, later entries overriding:
`{ ...o, ...Object.fromEntries(entries) }`. -/
def spreadEntries (o : List (String × Int)) (entries : List (String × Int)) :
    List (String × Int) :=
  entries.foldl (fun acc p => jsObjSet acc p.1 p.2) o

/-- Product type selector: `'clothing' | 'shoes'`. -/
inductive ProductType where
  | clothing
  | shoes
deriving DecidableEq

/-- `clothingSizes` literal from the component. -/
def clothingSizes : List String :=
  ["S", "M", "L", "XL", "XXL", "XXXL", "4XL", "5XL", "6XL"]

/-- `shoeSizes` literal from the component. -/
def shoeSizes : List String :=
  ["36", "37", "38", "39", "40", "41", "42", "43", "44", "45"]

/-- The full size-label space (keys of the `SizeRecord` type). -/
def allSizeLabels : List String := clothingSizes ++ shoeSizes

/-- The size catalog rendered for a given product type
(`type === 'clothing' ? clothingSizes : shoeSizes`). -/
def catalogOf : ProductType → List String
  | .clothing => clothingSizes
  | .shoes => shoeSizes

/-- The `SizeRecord` literal with every size label mapped to `0`, in the
order written in the source (used both as the initial `sizes` state and as
`initialSizes` inside `handleSubmit`). -/
def initialSizesRecord : List (String × Int) :=
  [("S", 0), ("M", 0), ("L", 0), ("XL", 0), ("XXL", 0), ("XXXL", 0),
   ("4XL", 0), ("5XL", 0), ("6XL", 0),
   ("36", 0), ("37", 0), ("38", 0), ("39", 0), ("40", 0),
   ("41", 0), ("42", 0), ("43", 0), ("44", 0), ("45", 0)]

/-- A `MediaStreamTrack` of the camera stream (identified by an id; the
`stop()` calls issued on tracks are reported by the camera operations as an
explicit list). -/
structure Track where
  id : Nat
deriving DecidableEq

/-- The `<video>` element bound to `videoRef`: its native pixel dimensions
and the current frame's pixel data. -/
structure Video where
  videoWidth : Nat
  videoHeight : Nat
  currentFrame : List Nat
deriving DecidableEq

/-- A `<canvas>` element: dimensions plus the frame drawn onto it, if any. -/
structure Canvas where
  width : Nat
  height : Nat
  drawn : Option (List Nat)
deriving DecidableEq

/-- `canvas.getContext('2d')`: the platform returns a drawing context for a
fresh canvas (treated as a reliable platform service, per the component's
assumptions). -/
def getContext2D (_ : Canvas) : Option Unit := some ()

/-- `ctx.drawImage(video, 0, 0)`: draws the video's current frame onto the
canvas. -/
def ctxDrawImage (c : Canvas) (v : Video) : Canvas :=
  { c with drawn := some v.currentFrame }

/-- Stand-in for the platform JPEG encoder behind `canvas.toDataURL('image/jpeg')`:
a concrete injective encoding of the canvas contents. -/
def jpegBase64 (c : Canvas) : String :=
  toString c.width ++ "x" ++ toString c.height ++ ";" ++
    (match c.drawn with
     | none => ""
     | some px => String.intercalate "," (px.map toString))

/-- `canvas.toDataURL('image/jpeg')`: a JPEG data URI of the canvas. -/
def canvasToDataURLJpeg (c : Canvas) : String :=
  "data:image/jpeg;base64," ++ jpegBase64 c

/-- The component's `useState`/`useRef` state. `videoRef` and `streamRef`
model the two refs (the DOM video element and the retained `MediaStream`,
the latter as its list of tracks). -/
structure ComponentState where
  name : String
  price : String
  image : String
  type : ProductType
  currentSizes : List String
  sizes : List (String × Int)
  videoRef : Option Video
  streamRef : Option (List Track)
deriving DecidableEq

/-- The state of the component when the modal mounts. -/
def initState : ComponentState :=
  { name := ""
    price := ""
    image := ""
    type := .clothing
    currentSizes := []
    sizes := initialSizesRecord
    videoRef := none
    streamRef := none }

/-- `handleSizeToggle`: remove the size if present (filtering out all equal
entries), otherwise append it. -/
def handleSizeToggle (size : String) (st : ComponentState) : ComponentState :=
  { st with
    currentSizes :=
      if st.currentSizes.contains size
      then st.currentSizes.filter (fun s => s != size)
      else st.currentSizes ++ [size] }

/-- `handleStockChange`: `const stockValue = parseInt(value) || 0` followed
by `{ ...prev, [size]: stockValue >= 0 ? stockValue : 0 }`. -/
def handleStockChange (size : String) (value : String) (st : ComponentState) :
    ComponentState :=
  let stockValue := jsOrZeroInt (parseIntJS value)
  { st with sizes := jsObjSet st.sizes size (if 0 ≤ stockValue then stockValue else 0) }

/-- The `<select>` `onChange` handler: `setType(...)` then `setCurrentSizes([])`. -/
def setTypeEvent (t : ProductType) (st : ComponentState) : ComponentState :=
  { st with type := t, currentSizes := [] }

/-- `stopCamera`: if a stream is held, stop each of its tracks and clear the
ref; otherwise do nothing. The second component is the list of tracks on
which `stop()` was called, in order. -/
def stopCamera (st : ComponentState) : ComponentState × List Track :=
  match st.streamRef with
  | none => (st, [])
  | some tracks => ({ st with streamRef := none }, tracks)

/-- `capturePhoto`: if the video ref is bound, create a canvas with the
video's native dimensions, draw the current frame, store the JPEG data URI
as the image, and release the camera. The second component is the list of
tracks stopped. -/
def capturePhoto (st : ComponentState) : ComponentState × List Track :=
  match st.videoRef with
  | none => (st, [])
  | some video =>
      let canvas : Canvas :=
        { width := video.videoWidth, height := video.videoHeight, drawn := none }
      match getContext2D canvas with
      | none => (st, [])
      | some _ =>
          let canvas1 := ctxDrawImage canvas video
          let base64Image := canvasToDataURLJpeg canvas1
          stopCamera { st with image := base64Image }

/-- The creation request handed to `onAdd` (`Omit<Product, 'id'>`). -/
structure ProductOut where
  name : String
  price : JsNum
  image : String
  type : ProductType
  sizes : List (String × Int)
  createdAt : Int
deriving DecidableEq

/-- The outcome of `handleSubmit`: the (unchanged) component state, the
product passed to `onAdd` if it was invoked, whether `onClose` was invoked,
and the alert message shown if any. -/
structure SubmitResult where
  state : ComponentState
  added : Option ProductOut
  closed : Bool
  alertMsg : Option String
deriving DecidableEq

/-- `handleSubmit` (with `now` standing for `Date.now()`): validate, then
assemble the product with `{ ...initialSizes, ...Object.fromEntries(
currentSizes.map(size => [size, sizes[size] || 0])) }` and invoke the
callbacks. -/
def handleSubmit (st : ComponentState) (now : Int) : SubmitResult :=
  if jsTrim st.name = "" ∨ st.price = "" ∨ st.image = "" then
    { state := st, added := none, closed := false,
      alertMsg := some "Lütfen tüm alanları doldurun." }
  else
    let numericPrice := parseFloatJS st.price
    if jsIsNaN numericPrice || jsLeZero numericPrice then
      { state := st, added := none, closed := false,
        alertMsg := some "Geçerli bir fiyat girin." }
    else
      let product : ProductOut :=
        { name := jsTrim st.name
          price := numericPrice
          image := st.image
          type := st.type
          sizes :=
            spreadEntries initialSizesRecord
              (st.currentSizes.map (fun size => (size, jsOrZeroGet (jsObjGet st.sizes size))))
          createdAt := now }
      { state := st, added := some product, closed := true, alertMsg := none }

/-- States the component can reach through its UI: the initial state, the
text setters, the type selector (which also clears the selection), size
toggles (the toggle buttons exist only for the current type's catalog),
stock edits (the stock inputs exist only for currently selected sizes),
and the camera events (stream grant, video-ref binding, capture, stop). -/
inductive Reachable : ComponentState → Prop where
  | init : Reachable initState
  | setName (st : ComponentState) (s : String) :
      Reachable st → Reachable { st with name := s }
  | setPrice (st : ComponentState) (s : String) :
      Reachable st → Reachable { st with price := s }
  | setImage (st : ComponentState) (s : String) :
      Reachable st → Reachable { st with image := s }
  | setType (st : ComponentState) (t : ProductType) :
      Reachable st → Reachable (setTypeEvent t st)
  | toggle (st : ComponentState) (s : String) :
      Reachable st → s ∈ catalogOf st.type → Reachable (handleSizeToggle s st)
  | stock (st : ComponentState) (s v : String) :
      Reachable st → s ∈ st.currentSizes → Reachable (handleStockChange s v st)
  | cameraGranted (st : ComponentState) (tracks : List Track) :
      Reachable st → Reachable { st with streamRef := some tracks }
  | videoBind (st : ComponentState) (v : Option Video) :
      Reachable st → Reachable { st with videoRef := v }
  | capture (st : ComponentState) :
      Reachable st → Reachable (capturePhoto st).1
  | stopCam (st : ComponentState) :
      Reachable st → Reachable (stopCamera st).1

/-- The state invariant: the `sizes` record always has exactly the full
label space as keys, the selected sizes all belong to the current type's
catalog, and every stock quantity is non-negative. -/
def Inv (st : ComponentState) : Prop :=
  st.sizes.map Prod.fst = allSizeLabels ∧
  (∀ s ∈ st.currentSizes, s ∈ catalogOf st.type) ∧
  (∀ p ∈ st.sizes, 0 ≤ p.2)

/-- A concrete state with the camera active: a bound 2×3 video and a
two-track stream (used to witness the capture behaviour). -/
def cameraActiveState : ComponentState :=
  { initState with
    videoRef := some ⟨2, 3, [7, 7, 7]⟩
    streamRef := some [⟨0⟩, ⟨1⟩] }

/-! ### Lemmas about the JavaScript-object model -/

theorem bool_eq_false {b : Bool} (h : ¬b = true) : b = false := by
  cases b
  · rfl
  · exact absurd rfl h

theorem find?_cons_true {α : Type} (p : α → Bool) (a : α) (l : List α) (h : p a = true) :
    List.find? p (a :: l) = some a := by
  simp [List.find?, h]

theorem find?_cons_false {α : Type} (p : α → Bool) (a : α) (l : List α) (h : p a = false) :
    List.find? p (a :: l) = List.find? p l := by
  simp [List.find?, h]

theorem jsObjGet_eq_none_of_any_false {o : List (String × Int)} {k : String}
    (h : o.any (fun p => p.1 == k) = false) :
    jsObjGet o k = none := by
  unfold jsObjGet
  rw [List.find?_eq_none.mpr]
  · rfl
  · intro x hx
    have := List.any_eq_false.mp h x hx
    simpa using this

theorem find?_map_override {o : List (String × Int)} {k : String} {v : Int} :
    o.any (fun p => p.1 == k) = true →
    (o.map (fun p => if p.1 == k then (k, v) else p)).find? (fun p => p.1 == k) =
      some (k, v) := by
  induction o with
  | nil => intro h; simp at h
  | cons p rest ih =>
    intro h
    rw [List.map_cons]
    by_cases hp : p.1 = k
    · have hhead : (if p.1 == k then (k, v) else p) = (k, v) := by simp [hp]
      rw [hhead, find?_cons_true _ _ _ (by simp)]
    · have hp' : (p.1 == k) = false := by simp [hp]
      have hhead : (if p.1 == k then (k, v) else p) = p := by simp [hp']
      rw [hhead, find?_cons_false (fun q => q.1 == k) p _ hp']
      apply ih
      have h2 := h
      rw [List.any_cons, hp', Bool.false_or] at h2
      exact h2

theorem find?_map_other {o : List (String × Int)} {k k' : String} {v : Int}
    (hne : k' ≠ k) :
    (o.map (fun p => if p.1 == k then (k, v) else p)).find? (fun p => p.1 == k') =
      o.find? (fun p => p.1 == k') := by
  induction o with
  | nil => rfl
  | cons p rest ih =>
    rw [List.map_cons]
    by_cases hp : p.1 = k
    · have hhead : (if p.1 == k then (k, v) else p) = (k, v) := by simp [hp]
      have hne2 : (((k, v) : String × Int).1 == k') = false := by
        simp only [beq_eq_false_iff_ne]
        exact Ne.symm hne
      have hne3 : (p.1 == k') = false := by
        rw [hp]
        simp only [beq_eq_false_iff_ne]
        exact Ne.symm hne
      rw [hhead, find?_cons_false (fun q => q.1 == k') (k, v) _ hne2,
        find?_cons_false (fun q => q.1 == k') p _ hne3, ih]
    · have hp' : (p.1 == k) = false := by simp [hp]
      have hhead : (if p.1 == k then (k, v) else p) = p := by simp [hp']
      rw [hhead]
      by_cases hq : p.1 = k'
      · rw [find?_cons_true (fun q => q.1 == k') p _ (by simp [hq]),
          find?_cons_true (fun q => q.1 == k') p _ (by simp [hq])]
      · rw [find?_cons_false (fun q => q.1 == k') p _ (by simp [hq]),
          find?_cons_false (fun q => q.1 == k') p _ (by simp [hq]), ih]

theorem jsObjGet_set_self (o : List (String × Int)) (k : String) (v : Int) :
    jsObjGet (jsObjSet o k v) k = some v := by
  unfold jsObjSet jsObjGet
  by_cases h : o.any (fun p => p.1 == k) = true
  · rw [if_pos h, find?_map_override h]
    rfl
  · have h' : o.any (fun p => p.1 == k) = false := bool_eq_false h
    rw [if_neg h, List.find?_append, List.find?_eq_none.mpr]
    · simp
    · intro x hx
      have := List.any_eq_false.mp h' x hx
      simpa using this

theorem jsObjGet_set_other (o : List (String × Int)) (k k' : String) (v : Int)
    (hne : k' ≠ k) :
    jsObjGet (jsObjSet o k v) k' = jsObjGet o k' := by
  unfold jsObjSet jsObjGet
  by_cases h : o.any (fun p => p.1 == k) = true
  · rw [if_pos h, find?_map_other hne]
  · have h1 : (((k, v) : String × Int).1 == k') = false := by
      simp only [beq_eq_false_iff_ne]
      exact Ne.symm hne
    rw [if_neg h, List.find?_append]
    rw [show List.find? (fun p => p.1 == k') [(k, v)] = none from by
      rw [find?_cons_false (fun q => q.1 == k') (k, v) _ h1]; rfl]
    simp

theorem map_fst_map_override (o : List (String × Int)) (k : String) (v : Int) :
    (o.map (fun p => if p.1 == k then (k, v) else p)).map Prod.fst = o.map Prod.fst := by
  induction o with
  | nil => rfl
  | cons p rest ih =>
    simp only [List.map_cons, ih]
    congr 1
    by_cases hp : p.1 = k
    · simp [hp]
    · simp [hp]

theorem jsObjSet_keys_of_mem {o : List (String × Int)} {k : String} (v : Int)
    (h : o.any (fun p => p.1 == k) = true) :
    (jsObjSet o k v).map Prod.fst = o.map Prod.fst := by
  unfold jsObjSet
  rw [if_pos h, map_fst_map_override]

theorem mem_of_mem_jsObjSet {o : List (String × Int)} {k : String} {v : Int}
    {q : String × Int} (hq : q ∈ jsObjSet o k v) : q ∈ o ∨ q = (k, v) := by
  unfold jsObjSet at hq
  by_cases h : o.any (fun p => p.1 == k) = true
  · rw [if_pos h] at hq
    rcases List.mem_map.mp hq with ⟨p, hp, he⟩
    by_cases hpk : p.1 = k
    · right
      rw [← he]
      simp [hpk]
    · left
      rw [← he]
      simpa [hpk] using hp
  · rw [if_neg h] at hq
    rcases List.mem_append.mp hq with h1 | h1
    · exact Or.inl h1
    · right
      simpa using h1

theorem exists_jsObjGet_of_mem_keys {o : List (String × Int)} {k : String}
    (h : k ∈ o.map Prod.fst) : ∃ n, jsObjGet o k = some n := by
  rcases List.mem_map.mp h with ⟨p, hp, he⟩
  unfold jsObjGet
  cases hfind : o.find? (fun p => p.1 == k) with
  | none => exact absurd (by simp [he]) (List.find?_eq_none.mp hfind p hp)
  | some q => exact ⟨q.2, rfl⟩

theorem any_keys_of_mem {o : List (String × Int)} {k : String}
    (h : k ∈ o.map Prod.fst) : o.any (fun p => p.1 == k) = true := by
  rcases List.mem_map.mp h with ⟨p, hp, he⟩
  exact List.any_eq_true.mpr ⟨p, hp, by simp [he]⟩

theorem spreadEntries_nil (o : List (String × Int)) : spreadEntries o [] = o := rfl

theorem spreadEntries_cons (o : List (String × Int)) (e : String × Int)
    (es : List (String × Int)) :
    spreadEntries o (e :: es) = spreadEntries (jsObjSet o e.1 e.2) es := rfl

theorem jsObjGet_spreadEntries (l : List String) (f : String → Int) :
    ∀ (o : List (String × Int)) (k : String),
      jsObjGet (spreadEntries o (l.map (fun s => (s, f s)))) k =
        if k ∈ l then some (f k) else jsObjGet o k := by
  induction l with
  | nil => intro o k; simp [spreadEntries_nil]
  | cons s rest ih =>
    intro o k
    rw [List.map_cons, spreadEntries_cons, ih]
    by_cases hk : k ∈ rest
    · simp [hk]
    · by_cases hks : k = s
      · subst hks
        simp [hk, jsObjGet_set_self]
      · simp [hk, hks, jsObjGet_set_other o s k (f s) hks]

theorem spreadEntries_keys (l : List String) (f : String → Int) :
    ∀ (o : List (String × Int)), (∀ s ∈ l, s ∈ o.map Prod.fst) →
      (spreadEntries o (l.map (fun s => (s, f s)))).map Prod.fst = o.map Prod.fst := by
  induction l with
  | nil => intro o _; rfl
  | cons s rest ih =>
    intro o h
    rw [List.map_cons, spreadEntries_cons]
    have hany : o.any (fun p => p.1 == s) = true :=
      any_keys_of_mem (h s (List.mem_cons_self s rest))
    have hkeys := jsObjSet_keys_of_mem (f s) hany
    rw [ih (jsObjSet o s (f s))
        (fun s' hs' => by rw [hkeys]; exact h s' (List.mem_cons_of_mem _ hs')), hkeys]

/-! ### Frame lemmas for the camera operations -/

theorem stopCamera_frame (st : ComponentState) :
    (stopCamera st).1.sizes = st.sizes ∧ (stopCamera st).1.currentSizes = st.currentSizes ∧
    (stopCamera st).1.type = st.type ∧ (stopCamera st).1.name = st.name ∧
    (stopCamera st).1.price = st.price ∧ (stopCamera st).1.image = st.image := by
  cases hs : st.streamRef <;> simp [stopCamera, hs]

theorem capturePhoto_frame (st : ComponentState) :
    (capturePhoto st).1.sizes = st.sizes ∧ (capturePhoto st).1.currentSizes = st.currentSizes ∧
    (capturePhoto st).1.type = st.type ∧ (capturePhoto st).1.name = st.name ∧
    (capturePhoto st).1.price = st.price := by
  cases hv : st.videoRef with
  | none => simp [capturePhoto, hv]
  | some v =>
    cases hs : st.streamRef <;>
      simp [capturePhoto, hv, getContext2D, stopCamera, hs]

/-! ### The reachability invariant -/

theorem catalogOf_subset_allSizeLabels {t : ProductType} {s : String}
    (h : s ∈ catalogOf t) : s ∈ allSizeLabels := by
  cases t with
  | clothing => exact List.mem_append.mpr (Or.inl h)
  | shoes => exact List.mem_append.mpr (Or.inr h)

theorem reachable_inv {st : ComponentState} (h : Reachable st) : Inv st := by
  induction h with
  | init => exact ⟨by decide, by decide, by decide⟩
  | setName st1 s hprev ih => exact ih
  | setPrice st1 s hprev ih => exact ih
  | setImage st1 s hprev ih => exact ih
  | setType st1 t hprev ih =>
    refine ⟨ih.1, ?_, ih.2.2⟩
    intro s hs
    simp [setTypeEvent] at hs
  | toggle st1 s hprev hs ih =>
    refine ⟨ih.1, ?_, ih.2.2⟩
    intro x hx
    show x ∈ catalogOf st1.type
    have e1 : (handleSizeToggle s st1).currentSizes =
        (if st1.currentSizes.contains s then st1.currentSizes.filter (fun a => a != s)
         else st1.currentSizes ++ [s]) := rfl
    by_cases hc : st1.currentSizes.contains s = true
    · rw [e1, if_pos hc] at hx
      exact ih.2.1 x (List.mem_of_mem_filter hx)
    · rw [e1, if_neg hc] at hx
      rcases List.mem_append.mp hx with h1 | h1
      · exact ih.2.1 x h1
      · rw [List.mem_singleton.mp h1]
        exact hs
  | stock st1 s v hprev hs ih =>
    refine ⟨?_, ih.2.1, ?_⟩
    · have hmem : s ∈ st1.sizes.map Prod.fst := by
        rw [ih.1]
        exact catalogOf_subset_allSizeLabels (ih.2.1 s hs)
      show (jsObjSet st1.sizes s _).map Prod.fst = allSizeLabels
      rw [jsObjSet_keys_of_mem _ (any_keys_of_mem hmem), ih.1]
    · intro p hp
      rcases mem_of_mem_jsObjSet hp with h1 | h1
      · exact ih.2.2 p h1
      · rw [h1]
        by_cases h0 : 0 ≤ jsOrZeroInt (parseIntJS v)
        · simp only [if_pos h0]
          exact h0
        · simp [h0]
  | cameraGranted st1 tracks hprev ih => exact ih
  | videoBind st1 v hprev ih => exact ih
  | capture st1 hprev ih =>
    obtain ⟨f1, f2, f3, _, _⟩ := capturePhoto_frame st1
    refine ⟨?_, ?_, ?_⟩
    · rw [f1]; exact ih.1
    · intro x hx
      rw [f2] at hx
      rw [f3]
      exact ih.2.1 x hx
    · rw [f1]; exact ih.2.2
  | stopCam st1 hprev ih =>
    obtain ⟨f1, f2, f3, _, _, _⟩ := stopCamera_frame st1
    refine ⟨?_, ?_, ?_⟩
    · rw [f1]; exact ih.1
    · intro x hx
      rw [f2] at hx
      rw [f3]
      exact ih.2.1 x hx
    · rw [f1]; exact ih.2.2

/-! ### Small evaluation helpers -/

theorem jsOrZeroInt_some (n : Int) : jsOrZeroInt (some n) = n := by
  show (if n = 0 then 0 else n) = n
  by_cases h : n = 0
  · rw [if_pos h, h]
  · rw [if_neg h]

theorem jsOrZeroGet_some (n : Int) : jsOrZeroGet (some n) = n := by
  show (if n = 0 then 0 else n) = n
  by_cases h : n = 0
  · rw [if_pos h, h]
  · rw [if_neg h]

theorem initialSizesRecord_keys : initialSizesRecord.map Prod.fst = allSizeLabels := by
  decide

theorem initialSizesRecord_get_zero :
    ∀ s ∈ allSizeLabels, jsObjGet initialSizesRecord s = some 0 := by
  decide

theorem handleSizeToggle_currentSizes (s : String) (st : ComponentState) :
    (handleSizeToggle s st).currentSizes =
      (if st.currentSizes.contains s then st.currentSizes.filter (fun a => a != s)
       else st.currentSizes ++ [s]) := rfl

theorem handleStockChange_sizes (size v : String) (st : ComponentState) :
    (handleStockChange size v st).sizes =
      jsObjSet st.sizes size
        (if 0 ≤ jsOrZeroInt (parseIntJS v) then jsOrZeroInt (parseIntJS v) else 0) := rfl

theorem mem_filter_ne {l : List String} {x s : String} (hx : x ∈ l) (hne : x ≠ s) :
    x ∈ l.filter (fun a => a != s) :=
  List.mem_filter.mpr ⟨hx, by simp [hne]⟩

theorem not_mem_filter_self (l : List String) (s : String) :
    s ∉ l.filter (fun a => a != s) := by
  intro h
  have := (List.mem_filter.mp h).2
  simp at this

/-! ### Claim theorems -/

/-- C5: `handleSizeToggle` removes a size that is currently selected
(membership-wise; all equal entries are filtered out) and appends an
unselected size at the end, so toggling the same size twice leaves its
membership in Selected Sizes unchanged — in particular a size absent
before two toggles is absent after them. -/
theorem handleSizeToggle_spec (st : ComponentState) (s : String) :
    (s ∈ st.currentSizes →
      s ∉ (handleSizeToggle s st).currentSizes ∧
      ∀ x, x ≠ s →
        (x ∈ (handleSizeToggle s st).currentSizes ↔ x ∈ st.currentSizes)) ∧
    (s ∉ st.currentSizes →
      (handleSizeToggle s st).currentSizes = st.currentSizes ++ [s]) ∧
    (s ∈ (handleSizeToggle s (handleSizeToggle s st)).currentSizes ↔
      s ∈ st.currentSizes) := by
  have hcont : st.currentSizes.contains s = true ↔ s ∈ st.currentSizes := by
    simp
  refine ⟨?_, ?_, ?_⟩
  · intro hmem
    rw [handleSizeToggle_currentSizes, if_pos (hcont.mpr hmem)]
    refine ⟨not_mem_filter_self _ _, ?_⟩
    intro x hne
    constructor
    · intro hx
      exact (List.mem_filter.mp hx).1
    · intro hx
      exact mem_filter_ne hx hne
  · intro hmem
    rw [handleSizeToggle_currentSizes, if_neg (by rw [hcont]; exact hmem)]
  · by_cases hmem : s ∈ st.currentSizes
    · have e1 : (handleSizeToggle s st).currentSizes =
          st.currentSizes.filter (fun a => a != s) := by
        rw [handleSizeToggle_currentSizes, if_pos (hcont.mpr hmem)]
      have h2 : s ∉ (handleSizeToggle s st).currentSizes := by
        rw [e1]; exact not_mem_filter_self _ _
      have e2 : (handleSizeToggle s (handleSizeToggle s st)).currentSizes =
          (handleSizeToggle s st).currentSizes ++ [s] := by
        rw [handleSizeToggle_currentSizes s (handleSizeToggle s st),
          if_neg (by simp; exact h2)]
      rw [e2]
      simp [hmem]
    · have e1 : (handleSizeToggle s st).currentSizes = st.currentSizes ++ [s] := by
        rw [handleSizeToggle_currentSizes, if_neg (by rw [hcont]; exact hmem)]
      have h2 : s ∈ (handleSizeToggle s st).currentSizes := by
        rw [e1]; simp
      have e2 : (handleSizeToggle s (handleSizeToggle s st)).currentSizes =
          (handleSizeToggle s st).currentSizes.filter (fun a => a != s) := by
        rw [handleSizeToggle_currentSizes s (handleSizeToggle s st),
          if_pos (by simp; exact h2)]
      rw [e2]
      simp [hmem, not_mem_filter_self]

/-- C5 witness: toggling the selected size `M` removes it; toggling the
unselected `L` appends it; double-toggling `M` restores its membership. -/
theorem handleSizeToggle_spec_witness :
    ("M" ∉ (handleSizeToggle "M"
        { initState with currentSizes := ["M"] }).currentSizes) ∧
    ((handleSizeToggle "L"
        { initState with currentSizes := ["M"] }).currentSizes = ["M"] ++ ["L"]) ∧
    ("M" ∈ (handleSizeToggle "M" (handleSizeToggle "M"
        { initState with currentSizes := ["M"] })).currentSizes ↔
      "M" ∈ ({ initState with currentSizes := ["M"] } : ComponentState).currentSizes) :=
  ⟨((handleSizeToggle_spec { initState with currentSizes := ["M"] } "M").1
      (by decide)).1,
   (handleSizeToggle_spec { initState with currentSizes := ["M"] } "L").2.1
      (by decide),
   (handleSizeToggle_spec { initState with currentSizes := ["M"] } "M").2.2⟩

/-- C6: switching the product type always resets Selected Sizes to the
empty list, and in every UI-reachable state Selected Sizes is a subset of
the catalog matching the current product type. -/
theorem setType_resets_selection (st : ComponentState) :
    (∀ t, (setTypeEvent t st).currentSizes = []) ∧
    (Reachable st → ∀ s ∈ st.currentSizes, s ∈ catalogOf st.type) :=
  ⟨fun _ => rfl, fun h => (reachable_inv h).2.1⟩

/-- C6 witness: switching to shoes empties a non-empty clothing selection,
and the subset invariant holds at the initial state. -/
theorem setType_resets_selection_witness :
    ((setTypeEvent ProductType.shoes
        { initState with currentSizes := ["M", "L"] }).currentSizes = []) ∧
    (∀ s ∈ initState.currentSizes, s ∈ catalogOf initState.type) :=
  ⟨(setType_resets_selection { initState with currentSizes := ["M", "L"] }).1
      ProductType.shoes,
   (setType_resets_selection initState).2 Reachable.init⟩

/-- C4: every Stock Map value is non-negative in every UI-reachable state,
and `setStock` stores `0` when the raw text fails to parse as an integer or
parses to a negative value, and the parsed value otherwise. -/
theorem handleStockChange_spec :
    (∀ st, Reachable st → ∀ p ∈ st.sizes, 0 ≤ p.2) ∧
    (∀ st size v,
      jsObjGet (handleStockChange size v st).sizes size =
        some (match parseIntJS v with
              | none => 0
              | some n => if 0 ≤ n then n else 0)) := by
  refine ⟨fun st h => (reachable_inv h).2.2, fun st size v => ?_⟩
  rw [handleStockChange_sizes, jsObjGet_set_self]
  cases hpi : parseIntJS v with
  | none => rfl
  | some n => rw [jsOrZeroInt_some]

/-- C4 witness: non-numeric text stores `0`, negative input stores `0`,
valid input stores the parsed value, and the invariant holds at a reachable
state. -/
theorem handleStockChange_spec_witness :
    (0 ≤ (("S", (0 : Int))).2) ∧
    jsObjGet (handleStockChange "M" "abc" initState).sizes "M" = some 0 ∧
    jsObjGet (handleStockChange "M" "-7" initState).sizes "M" = some 0 ∧
    jsObjGet (handleStockChange "M" "7" initState).sizes "M" = some 7 := by
  refine ⟨handleStockChange_spec.1 initState Reachable.init ("S", 0) (by decide),
    ?_, ?_, ?_⟩
  · rw [handleStockChange_spec.2 initState "M" "abc"]
    rfl
  · rw [handleStockChange_spec.2 initState "M" "-7"]
    rfl
  · rw [handleStockChange_spec.2 initState "M" "7"]
    rfl

/-- C7: `setStock` changes at most the targeted size's Stock Map entry:
every entry for a different size, and all other component state (name,
price, image, type, Selected Sizes), is unchanged. -/
theorem handleStockChange_frame (st : ComponentState) (size v s' : String)
    (h : s' ≠ size) :
    jsObjGet (handleStockChange size v st).sizes s' = jsObjGet st.sizes s' ∧
    (handleStockChange size v st).name = st.name ∧
    (handleStockChange size v st).price = st.price ∧
    (handleStockChange size v st).image = st.image ∧
    (handleStockChange size v st).type = st.type ∧
    (handleStockChange size v st).currentSizes = st.currentSizes := by
  refine ⟨?_, rfl, rfl, rfl, rfl, rfl⟩
  rw [handleStockChange_sizes]
  exact jsObjGet_set_other st.sizes size s' _ h

/-- C7 witness: editing the stock of `M` leaves the entry for `L` and all
other fields unchanged. -/
theorem handleStockChange_frame_witness :
    jsObjGet (handleStockChange "M" "5" initState).sizes "L" =
      jsObjGet initState.sizes "L" ∧
    (handleStockChange "M" "5" initState).name = initState.name ∧
    (handleStockChange "M" "5" initState).price = initState.price ∧
    (handleStockChange "M" "5" initState).image = initState.image ∧
    (handleStockChange "M" "5" initState).type = initState.type ∧
    (handleStockChange "M" "5" initState).currentSizes = initState.currentSizes :=
  handleStockChange_frame initState "M" "5" "L" (by decide)

/-- C9: `stopCamera` is idempotent: with no stream handle it is a no-op
(returning the state unchanged and stopping no track); with a handle it
stops every constituent track, clears the handle and changes nothing else,
so a second call is again a no-op. -/
theorem stopCamera_spec (st : ComponentState) :
    (st.streamRef = none → stopCamera st = (st, [])) ∧
    (∀ tracks, st.streamRef = some tracks →
      (stopCamera st).1 = { st with streamRef := none } ∧
      (stopCamera st).2 = tracks ∧
      stopCamera (stopCamera st).1 = ((stopCamera st).1, [])) := by
  constructor
  · intro h
    simp [stopCamera, h]
  · intro tracks h
    refine ⟨by simp [stopCamera, h], by simp [stopCamera, h], ?_⟩
    have h1 : (stopCamera st).1 = { st with streamRef := none } := by
      simp [stopCamera, h]
    rw [h1]
    simp [stopCamera]

/-- C9 witness: releasing with no active stream is a no-op, and releasing
an active two-track stream stops exactly those tracks, clears the handle,
and makes the following release a no-op. -/
theorem stopCamera_spec_witness :
    stopCamera initState = (initState, []) ∧
    (stopCamera { initState with streamRef := some [⟨0⟩, ⟨1⟩] }).1 =
      { ({ initState with streamRef := some [⟨0⟩, ⟨1⟩] } : ComponentState) with
        streamRef := none } ∧
    (stopCamera { initState with streamRef := some [⟨0⟩, ⟨1⟩] }).2 = [⟨0⟩, ⟨1⟩] ∧
    stopCamera (stopCamera { initState with streamRef := some [⟨0⟩, ⟨1⟩] }).1 =
      ((stopCamera { initState with streamRef := some [⟨0⟩, ⟨1⟩] }).1, []) :=
  ⟨(stopCamera_spec initState).1 rfl,
   ((stopCamera_spec { initState with streamRef := some [⟨0⟩, ⟨1⟩] }).2
      [⟨0⟩, ⟨1⟩] rfl).1,
   ((stopCamera_spec { initState with streamRef := some [⟨0⟩, ⟨1⟩] }).2
      [⟨0⟩, ⟨1⟩] rfl).2.1,
   ((stopCamera_spec { initState with streamRef := some [⟨0⟩, ⟨1⟩] }).2
      [⟨0⟩, ⟨1⟩] rfl).2.2⟩

/-- C2: every invalid submission — empty or whitespace-only name, empty
price text, price text `"0"`, a price parsing to a negative value, a price
parsing to `NaN`, or an empty image — blocks: the creation callback is not
invoked, the close callback is not invoked (the modal stays open), and the
component state is unchanged. -/
theorem handleSubmit_blocks (st : ComponentState) (now : Int)
    (h : jsTrim st.name = "" ∨ st.price = "" ∨ st.price = "0" ∨
      (∃ r, parseFloatJS st.price = JsNum.fin r ∧ r.num < 0) ∨
      parseFloatJS st.price = JsNum.nan ∨ st.image = "") :
    (handleSubmit st now).added = none ∧ (handleSubmit st now).closed = false ∧
    (handleSubmit st now).state = st := by
  by_cases h1 : jsTrim st.name = "" ∨ st.price = "" ∨ st.image = ""
  · simp only [handleSubmit]
    rw [if_pos h1]
    exact ⟨rfl, rfl, rfl⟩
  · have hcond :
        (jsIsNaN (parseFloatJS st.price) || jsLeZero (parseFloatJS st.price)) = true := by
      rcases h with hx | hx | hx | ⟨r, hr, hneg⟩ | hx | hx
      · exact absurd (Or.inl hx) h1
      · exact absurd (Or.inr (Or.inl hx)) h1
      · rw [hx]
        decide
      · rw [hr]
        simp only [jsIsNaN, jsLeZero, Bool.false_or, decide_eq_true_eq]
        omega
      · rw [hx]
        rfl
      · exact absurd (Or.inr (Or.inr hx)) h1
    simp only [handleSubmit]
    rw [if_neg h1, if_pos hcond]
    exact ⟨rfl, rfl, rfl⟩

/-- C2 witness: submitting with price `"0"` (name and image filled in)
invokes neither callback and leaves the state unchanged. -/
theorem handleSubmit_blocks_witness :
    (handleSubmit { initState with name := "a", price := "0", image := "i" } 0).added
      = none ∧
    (handleSubmit { initState with name := "a", price := "0", image := "i" } 0).closed
      = false ∧
    (handleSubmit { initState with name := "a", price := "0", image := "i" } 0).state
      = { initState with name := "a", price := "0", image := "i" } :=
  handleSubmit_blocks { initState with name := "a", price := "0", image := "i" } 0
    (Or.inr (Or.inr (Or.inl rfl)))

/-- C3 counterexample: the price text `"Infinity"` parses to an infinite
(hence non-finite) value, yet `handleSubmit` does not report a validation
failure: it builds and emits a creation request, contradicting the claim
that only prices parsing to a finite value pass validation. -/
theorem price_infinity_passes_validation :
    parseFloatJS "Infinity" = JsNum.inf ∧
    ((handleSubmit { initState with name := "a", price := "Infinity", image := "i" }
        0).added).isSome = true ∧
    (handleSubmit { initState with name := "a", price := "Infinity", image := "i" }
        0).closed = true :=
  ⟨by decide, by decide, by decide⟩

/-- C3 (amended): the price check rejects exactly the price texts parsing
to `NaN` or to a nonpositive value (`-Infinity` included): any such price
blocks the build, and every built request had a price parsing neither to
`NaN` nor to a nonpositive value — positive finite values and `Infinity`
both pass, and the built price is the parsed value. -/
theorem handleSubmit_price_validation (st : ComponentState) (now : Int) :
    ((jsIsNaN (parseFloatJS st.price) = true ∨ jsLeZero (parseFloatJS st.price) = true) →
      (handleSubmit st now).added = none ∧ (handleSubmit st now).closed = false) ∧
    (∀ p, (handleSubmit st now).added = some p →
      jsIsNaN (parseFloatJS st.price) = false ∧ jsLeZero (parseFloatJS st.price) = false ∧
      p.price = parseFloatJS st.price) := by
  constructor
  · intro h
    by_cases h1 : jsTrim st.name = "" ∨ st.price = "" ∨ st.image = ""
    · simp only [handleSubmit]
      rw [if_pos h1]
      exact ⟨rfl, rfl⟩
    · have hcond :
          (jsIsNaN (parseFloatJS st.price) || jsLeZero (parseFloatJS st.price)) = true := by
        rcases h with h | h
        · rw [h, Bool.true_or]
        · rw [h, Bool.or_true]
      simp only [handleSubmit]
      rw [if_neg h1, if_pos hcond]
      exact ⟨rfl, rfl⟩
  · intro p hp
    by_cases h1 : jsTrim st.name = "" ∨ st.price = "" ∨ st.image = ""
    · rw [show (handleSubmit st now).added = none from by
        simp only [handleSubmit, if_pos h1]] at hp
      exact absurd hp (by simp)
    · by_cases h2 :
          (jsIsNaN (parseFloatJS st.price) || jsLeZero (parseFloatJS st.price)) = true
      · rw [show (handleSubmit st now).added = none from by
          simp only [handleSubmit, if_neg h1, if_pos h2]] at hp
        exact absurd hp (by simp)
      · have hparts := Bool.or_eq_false_iff.mp (bool_eq_false h2)
        refine ⟨hparts.1, hparts.2, ?_⟩
        have hadd : (handleSubmit st now).added =
            some { name := jsTrim st.name, price := parseFloatJS st.price,
                   image := st.image, type := st.type,
                   sizes := spreadEntries initialSizesRecord
                     (st.currentSizes.map
                       (fun size => (size, jsOrZeroGet (jsObjGet st.sizes size)))),
                   createdAt := now } := by
          simp only [handleSubmit, if_neg h1, if_neg h2]
        rw [hadd] at hp
        rw [← Option.some_inj.mp hp]

/-- C3 amended-claim witness: a price parsing to a negative value blocks
the build and leaves the modal open. -/
theorem handleSubmit_price_validation_witness :
    (handleSubmit { initState with name := "a", price := "-2", image := "i" } 0).added
      = none ∧
    (handleSubmit { initState with name := "a", price := "-2", image := "i" } 0).closed
      = false :=
  (handleSubmit_price_validation
      { initState with name := "a", price := "-2", image := "i" } 0).1
    (Or.inr (by decide))

/-- C1: for every UI-reachable state whose trimmed name is non-empty, whose
price text parses to a finite value greater than zero, and whose image is
non-empty, submitting builds and emits a creation request whose name is the
trimmed name, whose price is the parsed number, and whose size map has
exactly the full label space (all 9 clothing plus all 10 shoe labels) as
keys, with the value at each selected size equal to its Stock Map entry and
`0` at every non-selected key. -/
theorem handleSubmit_valid (st : ComponentState) (now : Int) (r : JsRat)
    (hreach : Reachable st)
    (hname : jsTrim st.name ≠ "")
    (hprice : parseFloatJS st.price = JsNum.fin r)
    (hpos : 0 < r.num)
    (himage : st.image ≠ "") :
    ∃ p, (handleSubmit st now).added = some p ∧ (handleSubmit st now).closed = true ∧
      p.name = jsTrim st.name ∧
      p.price = JsNum.fin r ∧
      p.sizes.map Prod.fst = allSizeLabels ∧
      (∀ s ∈ st.currentSizes, jsObjGet p.sizes s = jsObjGet st.sizes s) ∧
      (∀ s ∈ allSizeLabels, s ∉ st.currentSizes → jsObjGet p.sizes s = some 0) := by
  have hInv := reachable_inv hreach
  have hpne : st.price ≠ "" := by
    intro he
    rw [he, show parseFloatJS "" = JsNum.nan from by decide] at hprice
    exact JsNum.noConfusion hprice
  have h1 : ¬(jsTrim st.name = "" ∨ st.price = "" ∨ st.image = "") := by
    rintro (hx | hx | hx)
    · exact hname hx
    · exact hpne hx
    · exact himage hx
  have h2 : ¬(jsIsNaN (parseFloatJS st.price) || jsLeZero (parseFloatJS st.price)) = true := by
    rw [hprice]
    simp only [jsIsNaN, jsLeZero, Bool.false_or, decide_eq_true_eq, not_le]
    omega
  have hsub : ∀ s ∈ st.currentSizes, s ∈ initialSizesRecord.map Prod.fst := by
    intro s hs
    rw [initialSizesRecord_keys]
    exact catalogOf_subset_allSizeLabels (hInv.2.1 s hs)
  have hadd : (handleSubmit st now).added =
      some { name := jsTrim st.name, price := parseFloatJS st.price,
             image := st.image, type := st.type,
             sizes := spreadEntries initialSizesRecord
               (st.currentSizes.map
                 (fun size => (size, jsOrZeroGet (jsObjGet st.sizes size)))),
             createdAt := now } := by
    simp only [handleSubmit, if_neg h1, if_neg h2]
  have hclosed : (handleSubmit st now).closed = true := by
    simp only [handleSubmit, if_neg h1, if_neg h2]
  refine ⟨_, hadd, hclosed, rfl, hprice, ?_, ?_, ?_⟩
  · rw [spreadEntries_keys st.currentSizes
      (fun size => jsOrZeroGet (jsObjGet st.sizes size)) initialSizesRecord hsub]
    exact initialSizesRecord_keys
  · intro s hs
    rw [jsObjGet_spreadEntries st.currentSizes
      (fun size => jsOrZeroGet (jsObjGet st.sizes size)) initialSizesRecord s, if_pos hs]
    obtain ⟨n, hn⟩ := @exists_jsObjGet_of_mem_keys st.sizes s (by
      rw [hInv.1]
      exact catalogOf_subset_allSizeLabels (hInv.2.1 s hs))
    rw [hn, jsOrZeroGet_some]
  · intro s hsAll hsNot
    rw [jsObjGet_spreadEntries st.currentSizes
      (fun size => jsOrZeroGet (jsObjGet st.sizes size)) initialSizesRecord s,
      if_neg hsNot]
    exact initialSizesRecord_get_zero s hsAll

/-- C1 witness: a concrete reachable valid state (name with surrounding
whitespace, price `"249.90"`, non-empty image) submits successfully with
the trimmed name and the full label space as keys. -/
theorem handleSubmit_valid_witness :
    (handleSubmit
        { initState with name := " Red Hoodie ", price := "249.90", image := "img" }
        0).closed = true ∧
    ((handleSubmit
        { initState with name := " Red Hoodie ", price := "249.90", image := "img" }
        0).added.map ProductOut.name) = some "Red Hoodie" ∧
    ((handleSubmit
        { initState with name := " Red Hoodie ", price := "249.90", image := "img" }
        0).added.map (fun p => p.sizes.map Prod.fst)) = some allSizeLabels := by
  obtain ⟨p, hadd, hclosed, hname, hprice, hkeys, hsel, hun⟩ :=
    handleSubmit_valid
      { initState with name := " Red Hoodie ", price := "249.90", image := "img" } 0
      ⟨24990, 100⟩
      (Reachable.setImage _ "img" (Reachable.setPrice _ "249.90"
        (Reachable.setName _ " Red Hoodie " Reachable.init)))
      (by decide) (by decide) (by decide) (by decide)
  refine ⟨hclosed, ?_, ?_⟩
  · rw [hadd, Option.map_some', hname]
    decide
  · rw [hadd, Option.map_some', hkeys]

/-- C8: with the camera active (video element bound and a stream held),
`capturePhoto` stores as the image a JPEG data URI of the video's current
frame rasterized at the video's native pixel dimensions, and immediately
afterwards releases the camera: every track of the stream is stopped and
the stream handle is cleared. -/
theorem capturePhoto_spec (st : ComponentState) (v : Video) (tracks : List Track)
    (hv : st.videoRef = some v) (hs : st.streamRef = some tracks) :
    (capturePhoto st).1.image =
      canvasToDataURLJpeg
        { width := v.videoWidth, height := v.videoHeight, drawn := some v.currentFrame } ∧
    (capturePhoto st).1.streamRef = none ∧
    (capturePhoto st).2 = tracks := by
  have e1 : capturePhoto st =
      stopCamera { st with image := (canvasToDataURLJpeg
        { width := v.videoWidth, height := v.videoHeight, drawn := some v.currentFrame }) } := by
    simp [capturePhoto, hv, getContext2D, ctxDrawImage]
  rw [e1]
  simp [stopCamera, hs]

/-- C8 witness: capturing from a bound 2×3 video with a two-track stream
stores the JPEG data URI of its frame and stops exactly those tracks. -/
theorem capturePhoto_spec_witness :
    (capturePhoto cameraActiveState).1.image =
      canvasToDataURLJpeg { width := 2, height := 3, drawn := some [7, 7, 7] } ∧
    (capturePhoto cameraActiveState).1.streamRef = none ∧
    (capturePhoto cameraActiveState).2 = [⟨0⟩, ⟨1⟩] :=
  capturePhoto_spec cameraActiveState ⟨2, 3, [7, 7, 7]⟩ [⟨0⟩, ⟨1⟩] rfl rfl

/-- C10: neither `handleSizeToggle` nor switching the product type touches
the Stock Map, so a quantity entered for a size persists across
deselection and reselection: in the concrete scenario (select `M`, set its
stock to 5, toggle `M` off, toggle `M` back on, submit with valid fields)
the emitted size map still carries the stale quantity 5 at `M` rather
than 0. -/
theorem stale_stock_after_toggle (st : ComponentState) :
    (∀ s, (handleSizeToggle s st).sizes = st.sizes) ∧
    (∀ t, (setTypeEvent t st).sizes = st.sizes) ∧
    ((handleSubmit
        (handleSizeToggle "M" (handleSizeToggle "M" (handleStockChange "M" "5"
          (handleSizeToggle "M"
            { initState with name := "x", price := "1", image := "i" })))) 0).added.map
      (fun p => jsObjGet p.sizes "M")) = some (some 5) :=
  ⟨fun _ => rfl, fun _ => rfl, by decide⟩

end AddProductModal
